import Mathlib

/-!
Verification development for the `nationbuilder-shopify-capital-redemption`
repository: a shallow embedding, in Lean 4, of the pagination decorator,
the response-processing decorator, the resource-filter helpers and the
Shopify capital-redemption task, together with theorems settling the
behavioural claims about them.

Python dictionaries are modelled as association lists with insert-or-replace
update (preserving insertion order, like CPython dicts); JSON values are an
inductive `JValue`; Python exceptions are modelled with `Except`; Python
floats that only ever hold decimal currency amounts are modelled as exact
rationals.
-/

/-- A JSON value as decoded from a response body (also reused for the values
of Python keyword-argument dictionaries). -/
inductive JValue where
  | null
  | bool (b : Bool)
  | num (n : Int)
  | str (s : String)
  | arr (xs : List JValue)
  | obj (fields : List (String × JValue))

/-- Python truthiness of a JSON value: `None`, `False`, `0`, `""` and empty
containers are falsy. -/
def JValue.truthy : JValue → Bool
  | .null => false
  | .bool b => b
  | .num n => n != 0
  | .str s => s != ""
  | .arr xs => !xs.isEmpty
  | .obj fs => !fs.isEmpty

/-- Lookup in an association-list dictionary (`d[k]` / `d.get(k)`). -/
def dlookup : List (String × α) → String → Option α
  | [], _ => none
  | (k, v) :: rest, key => if k = key then some v else dlookup rest key

/-- `k in d`: key-membership test for an association-list dictionary. -/
def dhas (d : List (String × α)) (k : String) : Bool :=
  (dlookup d k).isSome

/-- `d[k] = v`: insert-or-replace, keeping the original position of an
existing key, appending a new key at the end — CPython dict semantics. -/
def dinsert : List (String × α) → String → α → List (String × α)
  | [], key, v => [(key, v)]
  | (k, w) :: rest, key, v =>
      if k = key then (k, v) :: rest else (k, w) :: dinsert rest key v

/-- `d.update(d2)`: fold every binding of `d2` into `d`. -/
def dupdate (d d2 : List (String × α)) : List (String × α) :=
  d2.foldl (fun acc kv => dinsert acc kv.1 kv.2) d

/-- Remove a key from a dictionary (the mutation performed by `d.pop(k)`). -/
def dremove : List (String × α) → String → List (String × α)
  | [], _ => []
  | (k, v) :: rest, key =>
      if k = key then rest else (k, v) :: dremove rest key

/-- `d.pop(k, default)`: the popped value together with the shrunk dict. -/
def dpop (d : List (String × α)) (k : String) (dflt : α) :
    α × List (String × α) :=
  ((dlookup d k).getD dflt, dremove d k)

/-- The keys of a dictionary, in order. -/
def dkeys (d : List (String × α)) : List String :=
  d.map Prod.fst

/-- Python exceptions relevant to the embedded code. -/
inductive PyErr where
  | typeError
  | keyError
  | attributeError
  deriving Repr, DecidableEq

/-!
### `nationbuilder_api/helpers.py`: `handle_filter` and `filter_resource`

A resource filter is, per the source, either a single attribute name or a
list whose entries are attribute names or `(name, nested filter)` pairs.
-/

/-- One entry of a list-shaped resource filter: a plain attribute name or a
`(name, nested filter)` pair. -/
inductive FEntry where
  | flat (s : String)
  | nested (s : String) (sub : List FEntry)

/-- A resource filter: a single attribute name, or a list of entries. -/
inductive RFilter where
  | single (s : String)
  | multi (entries : List FEntry)

/-- `resource.get(attr)`: on a dict, look the key up defaulting to `None`;
on any non-dict value the attribute access `.get` itself raises
`AttributeError`. -/
def pyGet : JValue → String → Except PyErr JValue
  | .obj fs, k => .ok ((dlookup fs k).getD .null)
  | _, _ => .error .attributeError

/-- The loop body of `handle_filter(resource, filter)` from
`nationbuilder_api/helpers.py`, threading the `filtered_resource` dict being
built. For a string entry it stores `resource.get(attr)`. For a pair entry
the source evaluates `handle_filter(attr[1])(resource[attr[0]])`: the inner
call passes a single positional argument to the two-argument `handle_filter`,
so it raises `TypeError` before anything else happens. -/
def handle_filter_go (resource : JValue) :
    List FEntry → List (String × JValue) →
    Except PyErr (List (String × JValue))
  | [], acc => .ok acc
  | .flat s :: rest, acc =>
      match pyGet resource s with
      | .ok v => handle_filter_go resource rest (dinsert acc s v)
      | .error e => .error e
  | .nested _ _ :: _, _ => .error .typeError

/-- `handle_filter(resource, filter)`: build the filtered dict. -/
def handle_filter (resource : JValue) (entries : List FEntry) :
    Except PyErr JValue :=
  (handle_filter_go resource entries []).map JValue.obj

/-- `filter_resource(resource, filter)`: `resource.get(filter)` for a plain
string, otherwise delegate to `handle_filter`. -/
def filter_resource (resource : JValue) : RFilter → Except PyErr JValue
  | .single s => pyGet resource s
  | .multi entries => handle_filter resource entries

/-- Applying the same filter to the result of a first filtering (the
"filter twice" operation of the idempotence claim). -/
def filter_twice (resource : JValue) (f : RFilter) : Except PyErr JValue :=
  (filter_resource resource f).bind (fun r => filter_resource r f)

/-- Whether a filter entry is a plain attribute name. -/
def FEntry.isFlat : FEntry → Bool
  | .flat _ => true
  | .nested _ _ => false

/-- The attribute names of the plain entries of a filter list. -/
def flats : List FEntry → List String
  | [] => []
  | .flat s :: rest => s :: flats rest
  | .nested _ _ :: rest => flats rest

/-!
### `nationbuilder_api/endpoints/decorators.py`: `handle_pagination`

The wrapper `dec_f` produced by `handle_pagination` contains a `yield`
statement, so in Python it is a generator function: *every* invocation of a
decorated endpoint method — streaming or not — immediately evaluates to a
generator object without running any of the body. The body only runs when
the generator is driven; values produced by `yield` are what iteration
delivers, while the value of a `return` statement is stowed away in
`StopIteration.value`, invisible to ordinary iteration.

The embedding therefore separates the two notions: `handle_pagination_invoke`
models the call expression itself (it returns a generator object), and the
`GenRun` computed by `handle_pagination_run` models what happens when that
generator is driven to completion: the yielded values, the keyword-argument
dictionaries of the underlying page requests it issues, whether the partial
failure warning is logged, and the final outcome (`return` value carried by
`StopIteration`, or a propagated exception).

The wrapped single-page call `f` is modelled as a function of the request
index and the current keyword arguments, returning either a response or a
raised exception; `parse_qs(urlparse(next_page).query)` is modelled by an
abstract `parseNext` parameter. The loop is given fuel (a bound on the
number of iterations) because an adversarial page feed could chain `next`
links forever; running out of fuel is reported as the distinguished outcome
`GenOutcome.fuelOut` so that no theorem can mistake it for real behaviour.
-/

/-- An HTTP response: its decoded JSON body and its truthiness bit
(`requests.Response.__bool__` is true exactly for ok statuses).
`resp.json()` is `body`. -/
structure Response where
  body : JValue
  ok : Bool := true

/-- Keyword arguments of a call: a Python dict from names to values. -/
abbrev Kwargs : Type := List (String × JValue)

/-- How a driven pagination generator finished. -/
inductive GenOutcome where
  | ret (v : Option (List Response))
  | raiseExc (e : String)
  | fuelOut

/-- The observable behaviour of one complete run of the pagination
generator: yielded values, per-request keyword arguments, whether the
partial-result warning was logged, and the final outcome. -/
structure GenRun where
  yielded : List Response
  calls : List Kwargs
  warned : Bool
  outcome : GenOutcome

/-- `len(resps) != max_resps` where `max_resps` is whatever Python value was
popped from the keyword arguments: comparison with a non-`int` is simply
always unequal. -/
def lenNe (len : Nat) : JValue → Bool
  | .num n => (len : Int) != n
  | _ => true

/-- The `while` loop of `handle_pagination.dec_f`, from the source:

- loop while `yield_resps or len(resps) != max_resps` (short-circuit: the
  length test is never evaluated when streaming);
- issue the page request; on an exception, return the partial `resps` list
  and log a warning if collecting and at least one page was collected,
  otherwise re-raise;
- append the response when collecting, yield it when streaming;
- read `next` from the body; if truthy, merge its parsed query parameters
  over the keyword arguments and continue, else break;
- after the loop, a collecting run returns `resps` (a streaming run falls
  off the end, returning `None`). -/
def pagLoop (f : Nat → Kwargs → Except String Response)
    (parseNext : JValue → Kwargs) (yieldResps : Bool) (maxResps : JValue) :
    Nat → Nat → Kwargs → List Response → GenRun
  | 0, _, _, _ =>
      { yielded := [], calls := [], warned := false, outcome := .fuelOut }
  | fuel + 1, i, kwargs, resps =>
      if yieldResps || lenNe resps.length maxResps then
        match f i kwargs with
        | .error e =>
            if !yieldResps && !resps.isEmpty then
              { yielded := [], calls := [kwargs], warned := true,
                outcome := .ret (some resps) }
            else
              { yielded := [], calls := [kwargs], warned := false,
                outcome := .raiseExc e }
        | .ok resp =>
            let newResps := if yieldResps then resps else resps ++ [resp]
            let yieldedHere : List Response :=
              if yieldResps then [resp] else []
            let nextPage := (pyGet resp.body "next").toOption.getD .null
            if nextPage.truthy then
              let rest := pagLoop f parseNext yieldResps maxResps fuel (i + 1)
                (dupdate kwargs (parseNext nextPage)) newResps
              { yielded := yieldedHere ++ rest.yielded,
                calls := kwargs :: rest.calls,
                warned := rest.warned,
                outcome := rest.outcome }
            else
              { yielded := yieldedHere, calls := [kwargs], warned := false,
                outcome := .ret (if yieldResps then none else some newResps) }
      else
        { yielded := [], calls := [], warned := false,
          outcome := .ret (if yieldResps then none else some resps) }

/-- Driving the generator produced by one invocation of the decorated
method: pop `yield_resps` (default `False`); when collecting, also pop
`max_resps` (default `-1`) and start with an empty `resps` list. When
streaming, `max_resps` is *not* popped and the local `max_resps` variable is
never read (the loop condition short-circuits), which the embedding reflects
by the loop ignoring its `maxResps` argument whenever `yieldResps` holds. -/
def handle_pagination_run (f : Nat → Kwargs → Except String Response)
    (parseNext : JValue → Kwargs) (fuel : Nat) (kwargs : Kwargs) : GenRun :=
  let p := dpop kwargs "yield_resps" (JValue.bool false)
  if p.1.truthy then
    pagLoop f parseNext true (JValue.num (-1)) fuel 0 p.2 []
  else
    let q := dpop p.2 "max_resps" (JValue.num (-1))
    pagLoop f parseNext false q.1 fuel 0 q.2 []

/-- A value a decorated method call can evaluate to, as far as the callers
in this code base discriminate: a list, or a generator object. -/
inductive PyObject where
  | list (xs : List Response)
  | genObj (g : GenRun)

/-- `isinstance(res, list)`. -/
def PyObject.isList : PyObject → Bool
  | .list _ => true
  | .genObj _ => false

/-- The call expression `dec_f(self, ...)` itself: because `dec_f` is a
generator function, the call runs none of the body and evaluates to a
generator object — in particular it is never a `list`, whichever mode the
keyword arguments select. -/
def handle_pagination_invoke (f : Nat → Kwargs → Except String Response)
    (parseNext : JValue → Kwargs) (fuel : Nat) (kwargs : Kwargs) : PyObject :=
  .genObj (handle_pagination_run f parseNext fuel kwargs)

/-- A fixed page feed: request `i` is answered with the `i`-th body of the
list, and requests past the end of the list raise. Used to instantiate the
pagination theorems on synthetic page sequences. -/
def serve (bodies : List JValue) : Nat → Kwargs → Except String Response :=
  fun i _ =>
    match bodies.get? i with
    | some b => .ok ⟨b, true⟩
    | none => .error "no such page"

/-- A fixed page feed that fails at request `n`: earlier requests are served
from the list, request `n` (and later) raises. -/
def serveFailAt (bodies : List JValue) (n : Nat) :
    Nat → Kwargs → Except String Response :=
  fun i k => if i < n then serve bodies i k else .error "page fetch failed"

/-- A degenerate `next`-link query parser for the concrete test feeds: every
next link contributes the single query parameter `page`. -/
def parseNextPage : JValue → Kwargs := fun v => [("page", v)]

/-- Body of a synthetic page carrying a `next` link. -/
def pageWithNext (id : Int) : JValue :=
  .obj [("id", .num id), ("next", .str "https://x.example/api?page=2")]

/-- Body of a synthetic final page (no `next` link). -/
def pageLast (id : Int) : JValue :=
  .obj [("id", .num id)]

/-!
### `decorators.py` `handle_resp_proc` and `endpoints/helpers.py`

A response processor object is modelled by the pieces of it the chain
inspects: the named parameters of its underlying function after the leading
response parameter (`co_varnames[1:co_argcount]`), the keyword arguments
already bound into it when it is a `functools` partial object (`keywords`
is `none` for a plain function, which has no such attribute), and a
denotation giving the value it computes from the keyword arguments it is
finally invoked with and the response.
-/

/-- A response processor as the chain sees it. -/
structure ProcObj where
  params : List String
  keywords : Option (List (String × JValue))
  denote : List (String × JValue) → Response → JValue

/-- The keyword arguments the underlying function of `p` finally receives
when the (possibly layered) partial object is called: call-site keyword
arguments merged over the already bound ones. -/
def ProcObj.callKwargs (p : ProcObj) (callKw : List (String × JValue)) :
    List (String × JValue) :=
  dupdate (p.keywords.getD []) callKw

/-- `handle_resp_proc_args(resp_proc, resp_proc_args)` from
`endpoints/helpers.py`. When `resp_proc_args` is empty the processor is
returned unchanged (a partial object keeps its bound keyword arguments).
When it is non-empty, the source takes `resp_proc_args.keys()` and, when
the processor has a `keywords` attribute (it is a `functools.partial`
object), evaluates `resp_proc_arg_keys -= resp_proc.keywords.keys()`: the
dict-keys view has no in-place subtraction, so the name is rebound to a
builtin `set` — and the following line intersects it with the
`co_varnames[1:co_argcount]` *tuple*, which a builtin `set` does not
support: `set & tuple` raises `TypeError`. So every partial-object
processor combined with a non-empty argument dict raises before any
freezing happens. For a plain function (no `keywords` attribute, no bound
arguments) the dict-keys view supports the intersection: the argument keys
that name parameters of the function are frozen onto it with
`functools.partial`. The result is the keyword-argument dictionary the
underlying function receives when the resulting processor is called on a
response, or the raised `TypeError`. -/
def handle_resp_proc_args (rp : ProcObj) (rpArgs : List (String × JValue)) :
    Except PyErr (List (String × JValue)) :=
  if rpArgs.isEmpty then .ok (rp.keywords.getD [])
  else
    match rp.keywords with
    | some _ => .error .typeError
    | none =>
        let toFreeze := (dkeys rpArgs).filter (fun k => rp.params.contains k)
        .ok (rp.callKwargs (toFreeze.filterMap
          (fun k => (dlookup rpArgs k).map (fun v => (k, v)))))

/-- `proc_resp(resp, resp_proc, resp_proc_args)` for a callable processor:
freeze the resolvable arguments, then call the processor on the response;
a `TypeError` raised by the freezing step propagates. (The branch of
`proc_resp` that folds a list of processors over the response is not
needed by any claim and is not modelled.) -/
def proc_resp (resp : Response) (rp : ProcObj)
    (rpArgs : List (String × JValue)) : Except PyErr JValue :=
  (handle_resp_proc_args rp rpArgs).map (fun kw => rp.denote kw resp)

/-- The attribute environment of one invocation: the attributes found on the
wrapped method object `f` and on the endpoint instance `self`. -/
structure MethodEnv where
  fattr : String → Option JValue
  sattr : String → Option JValue

/-- The resolution loop of `handle_resp_proc.dec_f`, for the single name in
`RESP_PROC_ARGS`, namely `resource_name`:

`for arg in RESP_PROC_ARGS - resp_proc_args.keys():` skips the name when the
decoration-time dict already has it. Otherwise it evaluates
`getattr(f, arg, getattr(self, arg))`: the *default* expression
`getattr(self, arg)` is an argument and is evaluated first, so when `self`
lacks the attribute an `AttributeError` escapes (and is swallowed by the
`except AttributeError: pass`) even when `f` carries the attribute; when
`self` has it, the attribute of `f` wins if present. A successful lookup is
stored into the decoration-time dict itself, mutating it for all later
invocations. -/
def resolveRespProcArgs (D : List (String × JValue)) (env : MethodEnv) :
    List (String × JValue) :=
  if dhas D "resource_name" then D
  else
    match env.sattr "resource_name" with
    | none => D
    | some sv =>
        dinsert D "resource_name" ((env.fattr "resource_name").getD sv)

/-- The value `res` produced by the wrapped call `f(self, *args, **kwargs)`,
as far as `handle_resp_proc.dec_f` discriminates it: a single response, a
list of per-item responses (a homogeneous batch call), or a falsy
non-response. -/
inductive CallRes where
  | single (r : Response)
  | listRes (rs : List Response)
  | noneRes

/-- Result of one invocation of a `handle_resp_proc`-decorated method. -/
inductive DecOut where
  | raw (res : CallRes)
  | processed (v : JValue)
  | processedList (vs : List JValue)

/-- Truthiness of `res` (`if resp_proc and res:`): a single response by its
status bit, a list by non-emptiness. -/
def CallRes.truthy : CallRes → Bool
  | .single r => r.ok
  | .listRes rs => !rs.isEmpty
  | .noneRes => false

/-- `resps += x`: extending a list with a processor result; anything but a
JSON array is modelled as the `TypeError` a non-iterable raises. -/
def extendPy (acc : List JValue) (v : JValue) : Except PyErr (List JValue) :=
  match v with
  | .arr xs => .ok (acc ++ xs)
  | _ => .error .typeError

/-- The `for resp in res: resps += proc_resp_partial(resp)` loop of the
all-successful homogeneous batch branch; an exception from the processor
(or from extending with a non-iterable result) propagates. -/
def procAllResps (p : ProcObj) (D : List (String × JValue)) :
    List Response → List JValue → Except PyErr (List JValue)
  | [], acc => .ok acc
  | r :: rest, acc =>
      match proc_resp r p D with
      | .error e => .error e
      | .ok v =>
          match extendPy acc v with
          | .ok acc2 => procAllResps p D rest acc2
          | .error e => .error e

/-- The observable result of one invocation of `handle_resp_proc.dec_f`:
the (possibly mutated) decoration-time `resp_proc_args` dict, the returned
value or raised error, and whether the batch-failure error was logged. -/
structure DecResult where
  state : List (String × JValue)
  output : Except PyErr DecOut
  errorLogged : Bool

/-- Whether the caller passed `resp_proc` in the keyword arguments, and if
so what (Python `None` disables processing). -/
inductive RespProcArg where
  | omitted
  | passed (rp : Option ProcObj)

/-- One invocation of the wrapper `dec_f` produced by
`handle_resp_proc(resp_proc_dflt, **resp_proc_args)`, from the source:

- `resp_proc = kwargs.pop("resp_proc", resp_proc_dflt)`;
- `res = f(self, *args, **kwargs)` (given here as `res`);
- when `resp_proc` and `res` are both truthy, run the `resource_name`
  resolution loop (which mutates the decoration-time dict `D`), then:
  for a list `res`, process every item and concatenate when all items are
  truthy, else log an error and return the raw list unprocessed; for a
  single response, return the processed value;
- otherwise return `res` unchanged. -/
def handle_resp_proc_call (rpDflt : Option ProcObj)
    (D : List (String × JValue)) (env : MethodEnv)
    (callerRP : RespProcArg) (res : CallRes) : DecResult :=
  let rp : Option ProcObj :=
    match callerRP with
    | .omitted => rpDflt
    | .passed x => x
  match rp with
  | none => { state := D, output := .ok (.raw res), errorLogged := false }
  | some p =>
      if res.truthy then
        let D2 := resolveRespProcArgs D env
        match res with
        | .listRes rs =>
            if rs.all Response.ok then
              { state := D2,
                output := (procAllResps p D2 rs []).map DecOut.processedList,
                errorLogged := false }
            else
              { state := D2, output := .ok (.raw res), errorLogged := true }
        | .single r =>
            { state := D2, output := (proc_resp r p D2).map DecOut.processed,
              errorLogged := false }
        | .noneRes =>
            { state := D2, output := .ok (.raw res), errorLogged := false }
      else
        { state := D, output := .ok (.raw res), errorLogged := false }

/-- The keyword argument (here: `resource_name`) the processor's underlying
function receives on a processed single-response invocation: `.ok none`
when the parameter is omitted so that the function's own default applies,
`.ok (some v)` when the processor is invoked with `v`, and `.error` when
the freezing step raises and the processor is never invoked. -/
def receivedKwarg (p : ProcObj) (D : List (String × JValue))
    (env : MethodEnv) (name : String) : Except PyErr (Option JValue) :=
  (handle_resp_proc_args p (resolveRespProcArgs D env)).map
    (fun kw => dlookup kw name)

/-- Modelled from the spec: the resolution order the claim states for an
extra processor parameter — caller-supplied per-call value, then a value
already bound into the processor by partial application, then a same-named
attribute on the invoked endpoint method, then a same-named attribute on
the endpoint object; the first present source wins, `none` meaning the
parameter is silently omitted. Written for comparison with the behaviour of
the embedded code, not derived from it. -/
def claimedPrecedence (caller bound methodAttr endpointAttr : Option JValue) :
    Option JValue :=
  (caller.orElse (fun _ => bound)).orElse
    (fun _ => methodAttr.orElse (fun _ => endpointAttr))

/-!
### `platforms/shopify/tasks.py`: `create_discount`

The task body is embedded as a state-and-trace transformer. The person's
relevant state is the pending-redemption custom field (`None` or an amount)
and the capital balance in cents. The external Shopify calls and the
NationBuilder writes are recorded in an action trace; an environment of
failure flags chooses which external call, if any, raises. Python float
amounts are modelled as exact rationals; `round` is CPython's
round-half-to-even.
-/

/-- The person state `create_discount` reads and writes. -/
structure PersonState where
  pendingRedemption : Option Rat
  capitalCents : Int
  deriving DecidableEq, Repr

/-- Failure injection for the external calls inside the guarded block. -/
structure ShopEnv where
  createRuleFails : Bool
  addCodeFails : Bool
  addCapitalFails : Bool
  deriving DecidableEq, Repr

/-- The externally visible actions of one task run, in order. -/
inductive TaskAct where
  | getPerson
  | updatePending (v : Option Rat)
  | createPriceRule (value : Rat)
  | addDiscountCode
  | destroyPriceRule
  | addCapital (cents : Int)
  deriving DecidableEq, Repr

/-- CPython `round` to an integer: round half to even. -/
def pyRound (q : Rat) : Int :=
  let f := ⌊q⌋
  if q - f < 1 / 2 then f
  else if q - f > 1 / 2 then f + 1
  else if f % 2 = 0 then f else f + 1

/-- The price-rule `value` sent to Shopify:
`-(math.floor(redemption * rate * 100) / 100)`. -/
def ruleValue (redemption rate : Rat) : Rat :=
  -((⌊redemption * rate * 100⌋ : Rat) / 100)

/-- Result of one `create_discount` run. -/
structure TaskResult where
  result : Except String Unit
  person : PersonState
  trace : List TaskAct

/-- `create_discount(person_id)` from `platforms/shopify/tasks.py`:

- fetch the person (pending field and capital, via `payload_filter`);
- clear the pending field to `None`, unconditionally;
- parse `redemption` from the fetched pending value (a missing amount makes
  `float(None)` raise) and compute `capital` in currency units;
- when `0 < redemption <= capital`: create the price rule, attach the
  discount code, post a negative capital amount of `-round(redemption*100)`
  cents; on any exception, destroy the price rule when one was created
  (`except NameError: pass` swallows the unbound-name case), restore the
  pending field to the redemption amount, and re-raise;
- otherwise fall through silently. -/
def create_discount (rate : Rat) (env : ShopEnv) (p0 : PersonState) :
    TaskResult :=
  let p1 : PersonState := { p0 with pendingRedemption := none }
  let t1 : List TaskAct := [.getPerson, .updatePending none]
  match p0.pendingRedemption with
  | none =>
      { result := .error "TypeError: float() of None", person := p1,
        trace := t1 }
  | some redemption =>
      let capital : Rat := (p0.capitalCents : Rat) / 100
      if 0 < redemption ∧ redemption ≤ capital then
        if env.createRuleFails then
          { result := .error "price rule creation failed",
            person := { p1 with pendingRedemption := some redemption },
            trace := t1 ++ [.updatePending (some redemption)] }
        else
          let t2 := t1 ++ [.createPriceRule (ruleValue redemption rate)]
          if env.addCodeFails then
            { result := .error "discount code creation failed",
              person := { p1 with pendingRedemption := some redemption },
              trace := t2 ++ [.destroyPriceRule,
                              .updatePending (some redemption)] }
          else
            let t3 := t2 ++ [.addDiscountCode]
            if env.addCapitalFails then
              { result := .error "capital post failed",
                person := { p1 with pendingRedemption := some redemption },
                trace := t3 ++ [.destroyPriceRule,
                                .updatePending (some redemption)] }
            else
              { result := .ok (),
                person := { pendingRedemption := none,
                            capitalCents :=
                              p0.capitalCents - pyRound (redemption * 100) },
                trace := t3 ++ [.addCapital (-(pyRound (redemption * 100)))] }
      else
        { result := .ok (), person := p1, trace := t1 }

/-- Whether an action is one of the side effects the no-op claim forbids:
creating a price rule or discount code, or changing capital. -/
def TaskAct.isForbiddenEffect : TaskAct → Bool
  | .createPriceRule _ => true
  | .addDiscountCode => true
  | .addCapital _ => true
  | _ => false

/-!
### Concrete fixtures used by the theorems
-/

/-- Two synthetic pages: the first carries a `next` link, the second does
not. -/
def bodies2 : List JValue := [pageWithNext 1, pageLast 2]

/-- Two synthetic pages, both carrying `next` links, served by a feed that
fails on the third request. -/
def bodiesBoth : List JValue := [pageWithNext 1, pageWithNext 2]

/-- Three synthetic pages: the first two carry `next` links. -/
def bodies3 : List JValue := [pageWithNext 1, pageWithNext 2, pageLast 3]

/-- A probe processor accepting `resource_name`, bound to nothing, whose
result makes visible exactly which `resource_name` it was invoked with
(wrapped in a one-element array, or an empty array when the parameter was
omitted). -/
def probeProc : ProcObj :=
  { params := ["resource_name"],
    keywords := none,
    denote := fun kw _ =>
      match dlookup kw "resource_name" with
      | some v => JValue.arr [v]
      | none => JValue.arr [] }

/-- A probe processor like `probeProc`, but a `functools.partial` object
with `resource_name="caller"` already bound into it — the shape a caller's
`payload_filter(filter, resource_name="caller")` produces. -/
def partialProbeProc : ProcObj :=
  { params := ["resource_name"],
    keywords := some [("resource_name", JValue.str "caller")],
    denote := fun kw _ =>
      match dlookup kw "resource_name" with
      | some v => JValue.arr [v]
      | none => JValue.arr [] }

/-- The attribute environment of `People.register`: the wrapped function has
no `resource_name` attribute, the endpoint object has
`resource_name = "person"`. -/
def envRegister : MethodEnv :=
  { fattr := fun _ => none,
    sattr := fun k =>
      if k = "resource_name" then some (.str "person") else none }

/-- An attribute environment where only the wrapped method object carries
`resource_name` (as every `handle_pagination` wrapper does, via
`dec_f.resource_name = "results"`) and the endpoint object has no such
attribute. -/
def envMethodOnly : MethodEnv :=
  { fattr := fun k =>
      if k = "resource_name" then some (.str "results") else none,
    sattr := fun _ => none }

/-- An attribute environment with endpoint attribute
`resource_name = "tag"`, used as the second, different endpoint of the
memoization claim. -/
def envTag : MethodEnv :=
  { fattr := fun _ => none,
    sattr := fun k => if k = "resource_name" then some (.str "tag") else none }

/-- The keyword arguments the underlying function of the processor receives
on the bound value of a processor: convenience accessor for stating the
resolution theorems. -/
def boundKwarg (p : ProcObj) (name : String) : Option JValue :=
  match p.keywords with
  | some kw => dlookup kw name
  | none => none

/-- Snapshot of the dict built by the flat-entry filter loop, expressed as a
fold over the entries with the per-attribute value given by `g`: the shape
`handle_filter_go` produces on a dict resource and a flat-only filter. -/
def buildv (g : String → JValue) :
    List FEntry → List (String × JValue) → List (String × JValue)
  | [], acc => acc
  | .flat s :: rest, acc => buildv g rest (dinsert acc s (g s))
  | .nested _ _ :: _, acc => acc

/-!
### Dictionary lemmas
-/

/-- Lookup after insert-or-replace. -/
theorem dlookup_dinsert (d : List (String × α)) (k k2 : String) (v : α) :
    dlookup (dinsert d k v) k2 = if k = k2 then some v else dlookup d k2 := by
  induction d with
  | nil => simp [dinsert, dlookup]
  | cons hd tl ih =>
      obtain ⟨a, w⟩ := hd
      by_cases h1 : a = k
      · subst h1
        simp only [dinsert, if_pos rfl, dlookup]
        by_cases h2 : a = k2 <;> simp [h2]
      · simp only [dinsert, if_neg h1, dlookup]
        by_cases h2 : a = k2
        · subst h2
          have hk : ¬(k = a) := fun h => h1 h.symm
          simp [hk]
        · simp [dlookup, h2, ih]

/-- Key membership after insert-or-replace. -/
theorem dhas_dinsert (d : List (String × α)) (k k2 : String) (v : α)
    (h : dhas d k2 = true) : dhas (dinsert d k v) k2 = true := by
  unfold dhas at h ⊢
  rw [dlookup_dinsert]
  by_cases hk : k = k2 <;> simp [hk, h]

/-- Key membership is preserved by `update`. -/
theorem dhas_dupdate (d d2 : List (String × α)) (k : String)
    (h : dhas d k = true) : dhas (dupdate d d2) k = true := by
  induction d2 generalizing d with
  | nil => exact h
  | cons kv rest ih =>
      show dhas (dupdate (dinsert d kv.1 kv.2) rest) k = true
      exact ih _ (dhas_dinsert _ _ _ _ h)

/-- Removing one key leaves lookups of other keys unchanged. -/
theorem dlookup_dremove_ne (d : List (String × α)) (k k2 : String)
    (h : k ≠ k2) : dlookup (dremove d k) k2 = dlookup d k2 := by
  induction d with
  | nil => rfl
  | cons hd tl ih =>
      obtain ⟨a, w⟩ := hd
      by_cases h1 : a = k
      · subst h1
        simp only [dremove, if_pos rfl, dlookup]
        have : ¬(a = k2) := h
        simp [this]
      · simp only [dremove, if_neg h1, dlookup]
        by_cases h2 : a = k2 <;> simp [h2, ih]

/-- Lookup distributes over list append. -/
theorem dlookup_append (a b : List (String × α)) (k : String) :
    dlookup (a ++ b) k = (dlookup a k).orElse (fun _ => dlookup b k) := by
  induction a with
  | nil => simp [dlookup]
  | cons hd tl ih =>
      obtain ⟨x, w⟩ := hd
      by_cases h : x = k <;> simp [dlookup, h, ih]

/-- Lookup after a full `update`: the last binding of the update list wins,
else the original dictionary answers. -/
theorem dlookup_dupdate (d d2 : List (String × α)) (k : String) :
    dlookup (dupdate d d2) k
      = (dlookup d2.reverse k).orElse (fun _ => dlookup d k) := by
  induction d2 generalizing d with
  | nil => simp [dupdate, dlookup]
  | cons kv rest ih =>
      show dlookup (dupdate (dinsert d kv.1 kv.2) rest) k = _
      rw [ih, List.reverse_cons, dlookup_append]
      cases hr : dlookup rest.reverse k
      · simp only [hr, Option.orElse]
        rw [dlookup_dinsert]
        obtain ⟨a, w⟩ := kv
        by_cases h : a = k <;> simp [dlookup, h, Option.orElse]
      · simp [hr, Option.orElse]

/-!
### Filter theorems (claims C3 and C6)
-/

/-- On a dict resource and a flat-only filter, the filter loop computes the
`buildv` fold with the per-attribute value `resource.get(attr)`. -/
theorem handle_filter_go_flat (fs : List (String × JValue))
    (entries : List FEntry) (hflat : ∀ e ∈ entries, e.isFlat = true)
    (acc : List (String × JValue)) :
    handle_filter_go (JValue.obj fs) entries acc
      = .ok (buildv (fun s => (dlookup fs s).getD .null) entries acc) := by
  induction entries generalizing acc with
  | nil => rfl
  | cons e rest ih =>
      cases e with
      | flat s =>
          simp only [handle_filter_go, pyGet, buildv]
          exact ih (fun e he => hflat e (List.mem_cons_of_mem _ he)) _
      | nested s sub =>
          have := hflat (.nested s sub) (List.mem_cons_self _ _)
          simp [FEntry.isFlat] at this

/-- Lookup into the dict built by the flat-entry fold. -/
theorem dlookup_buildv (g : String → JValue) (entries : List FEntry)
    (hflat : ∀ e ∈ entries, e.isFlat = true) (acc : List (String × JValue))
    (s : String) :
    dlookup (buildv g entries acc) s
      = if s ∈ flats entries then some (g s) else dlookup acc s := by
  induction entries generalizing acc with
  | nil => simp [buildv, flats]
  | cons e rest ih =>
      cases e with
      | flat t =>
          simp only [buildv, flats]
          rw [ih (fun e he => hflat e (List.mem_cons_of_mem _ he))]
          by_cases hm : s ∈ flats rest
          · simp [hm]
          · rw [dlookup_dinsert]
            by_cases ht : t = s
            · subst ht
              simp [hm]
            · have hst : ¬(s = t) := fun h => ht h.symm
              have hnm : ¬(s ∈ t :: flats rest) := by
                simp [List.mem_cons, hm, hst]
              simp [hm, ht, hnm]
      | nested t sub =>
          have := hflat (.nested t sub) (List.mem_cons_self _ _)
          simp [FEntry.isFlat] at this

/-- The flat-entry fold only depends on `g` at the filter's attribute
names. -/
theorem buildv_congr (g g2 : String → JValue) (entries : List FEntry)
    (h : ∀ s ∈ flats entries, g s = g2 s) (acc : List (String × JValue)) :
    buildv g entries acc = buildv g2 entries acc := by
  induction entries generalizing acc with
  | nil => rfl
  | cons e rest ih =>
      cases e with
      | flat t =>
          simp only [buildv]
          rw [h t (by simp [flats])]
          exact ih (fun s hs => h s (by simp [flats, hs])) _
      | nested t sub => rfl

/-- C3. The claim states that filtering never raises and maps any absent
attribute to `None`, "for flat string entries and nested (name, sub-filter)
entries alike". The code contradicts it for nested entries: the nested
branch of `handle_filter` invokes `handle_filter(attr[1])` with a single
positional argument, so any nested entry — present or absent — raises
`TypeError`; even the evidently intended call would index
`resource[attr[0]]` and raise `KeyError` on an absent attribute. Flat
entries do behave as claimed. Evaluated here at the failing input
`resource = {}`, `filter = [("a", ["b"])]`. -/
theorem C3_nested_filter_entry_raises :
    filter_resource (JValue.obj [])
        (RFilter.multi [FEntry.nested "a" [FEntry.flat "b"]])
      = .error PyErr.typeError
    ∧ filter_resource (JValue.obj []) (RFilter.multi [FEntry.flat "a"])
      = .ok (JValue.obj [("a", JValue.null)])
    ∧ filter_resource (JValue.obj []) (RFilter.single "a") = .ok JValue.null :=
  ⟨rfl, rfl, rfl⟩

/-- C6 counterexample: the resource `{"a": 5}` and the filter `"a"` — a
well-formed `ResourceFilter` naming only attributes present on the
resource — filter once to `5`, but filtering the filtered result again
raises `AttributeError` (`5` has no `.get`), so applying the filter twice
does not yield the same mapping as applying it once. -/
theorem C6_counterexample :
    filter_resource (JValue.obj [("a", JValue.num 5)]) (RFilter.single "a")
      = .ok (JValue.num 5)
    ∧ filter_twice (JValue.obj [("a", JValue.num 5)]) (RFilter.single "a")
      = .error PyErr.attributeError
    ∧ filter_twice (JValue.obj [("a", JValue.num 5)]) (RFilter.single "a")
      ≠ filter_resource (JValue.obj [("a", JValue.num 5)]) (RFilter.single "a") :=
  ⟨rfl, rfl, fun h => nomatch h⟩

/-- C6 (amended): for every resource that is a JSON object and every
`ResourceFilter` spec that is a *list of plain attribute names*, each
present on the resource, applying the filter twice yields the same mapping
as applying it once. -/
theorem C6_flat_filter_idempotent (fs : List (String × JValue))
    (entries : List FEntry) (hflat : ∀ e ∈ entries, e.isFlat = true)
    (_hpres : ∀ s ∈ flats entries, dhas fs s = true) :
    filter_twice (JValue.obj fs) (RFilter.multi entries)
      = filter_resource (JValue.obj fs) (RFilter.multi entries) := by
  have h1 : filter_resource (JValue.obj fs) (RFilter.multi entries)
      = .ok (JValue.obj
          (buildv (fun s => (dlookup fs s).getD .null) entries [])) := by
    simp [filter_resource, handle_filter, handle_filter_go_flat fs entries hflat,
      Except.map]
  rw [filter_twice, h1]
  show filter_resource _ (RFilter.multi entries) = _
  simp only [filter_resource, handle_filter]
  rw [handle_filter_go_flat _ entries hflat]
  have h2 : buildv (fun s =>
      (dlookup (buildv (fun s => (dlookup fs s).getD .null) entries []) s).getD
        .null) entries []
      = buildv (fun s => (dlookup fs s).getD .null) entries [] := by
    apply buildv_congr
    intro s hs
    rw [dlookup_buildv _ entries hflat [] s, if_pos hs]
    rfl
  rw [h2]
  rfl

/-- C6 witness: the idempotence theorem applied to the resource
`{"a": 1, "b": "x"}` and the flat filter `["a", "b"]`. -/
theorem C6_flat_filter_idempotent_witness :
    filter_twice (JValue.obj [("a", JValue.num 1), ("b", JValue.str "x")])
        (RFilter.multi [FEntry.flat "a", FEntry.flat "b"])
      = filter_resource (JValue.obj [("a", JValue.num 1), ("b", JValue.str "x")])
          (RFilter.multi [FEntry.flat "a", FEntry.flat "b"]) :=
  C6_flat_filter_idempotent _ _ (by decide) (by decide)

/-!
### Pagination theorems (claims C1, C2 and C10)
-/

/-- C1. The claim says a non-streaming paginated call over simple pages
"returns exactly the list of the N per-page results", and a streaming call
yields them. The code contradicts the non-streaming half: the wrapper is a
generator function, so the call evaluates to a generator object, never a
list; driving that generator yields nothing (the collected 2-page list is
only its `StopIteration` return value). The streaming half behaves as
claimed. Evaluated on the two-page feed `bodies2` with default
`max_resps`. -/
theorem C1_nonstreaming_call_is_generator_not_list :
    (handle_pagination_invoke (serve bodies2) parseNextPage 3 []).isList = false
    ∧ (handle_pagination_run (serve bodies2) parseNextPage 3 []).yielded = []
    ∧ (handle_pagination_run (serve bodies2) parseNextPage 3 []).outcome
        = GenOutcome.ret
            (some [⟨pageWithNext 1, true⟩, ⟨pageLast 2, true⟩])
    ∧ (handle_pagination_run (serve bodies2) parseNextPage 3
          [("yield_resps", JValue.bool true)]).yielded
        = [⟨pageWithNext 1, true⟩, ⟨pageLast 2, true⟩]
    ∧ (handle_pagination_run (serve bodies2) parseNextPage 3
          [("yield_resps", JValue.bool true)]).outcome = GenOutcome.ret none :=
  ⟨rfl, rfl, rfl, rfl, rfl⟩

/-- C2. The claim says that when pages 1..k fetch and page k+1 raises, a
non-streaming call returns the k collected results as a partial list (with
a warning logged), and that a streaming call, or a non-streaming call whose
first fetch raises, propagates the exception. The code contradicts the
non-streaming return: the call evaluates to a generator object, iterating
it yields nothing, and the partial 2-element list exists only as the
generator's `StopIteration` return value (the warning is logged when the
generator is driven). The streaming and first-page-failure behaviours are
as claimed, but occur when the generator is driven, not at the call.
Evaluated on a feed whose third request raises. -/
theorem C2_partial_list_not_returned_by_call :
    (handle_pagination_invoke (serveFailAt bodiesBoth 2) parseNextPage 5
        []).isList = false
    ∧ (handle_pagination_run (serveFailAt bodiesBoth 2) parseNextPage 5
          []).warned = true
    ∧ (handle_pagination_run (serveFailAt bodiesBoth 2) parseNextPage 5
          []).outcome
        = GenOutcome.ret
            (some [⟨pageWithNext 1, true⟩, ⟨pageWithNext 2, true⟩])
    ∧ (handle_pagination_run (serveFailAt bodiesBoth 2) parseNextPage 5
          []).yielded = []
    ∧ (handle_pagination_run (serveFailAt bodiesBoth 2) parseNextPage 5
          [("yield_resps", JValue.bool true)]).yielded
        = [⟨pageWithNext 1, true⟩, ⟨pageWithNext 2, true⟩]
    ∧ (handle_pagination_run (serveFailAt bodiesBoth 2) parseNextPage 5
          [("yield_resps", JValue.bool true)]).outcome
        = GenOutcome.raiseExc "page fetch failed"
    ∧ (handle_pagination_run (serveFailAt bodiesBoth 0) parseNextPage 5
          []).outcome = GenOutcome.raiseExc "page fetch failed" :=
  ⟨rfl, rfl, rfl, rfl, rfl, rfl, rfl⟩

/-- Every page request the pagination loop issues carries every key the
initial keyword arguments had: `kwargs.update(...)` never removes keys. -/
theorem pagLoop_calls_key (f : Nat → Kwargs → Except String Response)
    (parseNext : JValue → Kwargs) (yr : Bool) (m : JValue) (key : String) :
    ∀ fuel i kwargs resps, dhas kwargs key = true →
      ∀ c ∈ (pagLoop f parseNext yr m fuel i kwargs resps).calls,
        dhas c key = true := by
  intro fuel
  induction fuel with
  | zero =>
      intro i kwargs resps h c hc
      simp [pagLoop] at hc
  | succ n ih =>
      intro i kwargs resps h c hc
      simp only [pagLoop] at hc
      split at hc
      · split at hc
        · split at hc
          · simp at hc
            subst hc
            exact h
          · simp at hc
            subst hc
            exact h
        · split at hc
          · simp only [List.mem_cons] at hc
            cases hc with
            | inl hcq =>
                subst hcq
                exact h
            | inr hcq =>
                exact ih _ _ _ (dhas_dupdate _ _ _ h) c hcq
          · simp at hc
            subst hc
            exact h
      · simp at hc

/-- In streaming mode, the loop yields one response per page of the feed,
from the current index to the first page without a truthy `next` link, for
any `maxResps` value, any keyword arguments and any `resps` accumulator —
the length check of the loop condition is short-circuited away. -/
theorem pagLoop_stream_serve (bodies : List JValue)
    (parseNext : JValue → Kwargs) (m : JValue)
    (hn : ∀ k, k < bodies.length →
      (((pyGet ((bodies.get? k).getD .null) "next").toOption.getD .null).truthy
        = decide (k + 1 < bodies.length))) :
    ∀ fuel i kwargs resps, i < bodies.length → bodies.length - i ≤ fuel →
      (pagLoop (serve bodies) parseNext true m fuel i kwargs resps).yielded
        = (bodies.drop i).map (fun b => Response.mk b true) := by
  intro fuel
  induction fuel with
  | zero =>
      intro i kwargs resps hi hle
      omega
  | succ n ih =>
      intro i kwargs resps hi hle
      have hserve : serve bodies i kwargs = .ok ⟨bodies.get ⟨i, hi⟩, true⟩ := by
        simp [serve, List.get?_eq_getElem?, List.getElem?_eq_getElem hi]
      have hdrop : bodies.drop i = bodies.get ⟨i, hi⟩ :: bodies.drop (i + 1) := by
        rw [List.drop_eq_getElem_cons hi]
        simp [List.get_eq_getElem]
      have hnext := hn i hi
      rw [List.get?_eq_get hi] at hnext
      simp only [Option.getD_some] at hnext
      simp only [pagLoop, Bool.true_or, if_pos, hserve]
      by_cases hlt : i + 1 < bodies.length
      · have hd : decide (i + 1 < bodies.length) = true := by simp [hlt]
        rw [hnext, hd]
        simp only [if_pos]
        have hrest := ih (i + 1) (dupdate kwargs (parseNext
          ((pyGet (bodies.get ⟨i, hi⟩) "next").toOption.getD .null)))
          resps hlt (by omega)
        simp only [hrest, hdrop, List.map_cons]
        rfl
      · have hd : decide (i + 1 < bodies.length) = false := by simp [hlt]
        rw [hnext, hd]
        simp only [Bool.false_eq_true, if_neg]
        have hlen : bodies.length ≤ i + 1 := by omega
        rw [hdrop]
        simp [List.drop_eq_nil_of_le hlen]

/-- C10: when a paginated method is invoked in streaming mode
(`yield_resps` truthy), `max_resps` never bounds the stream: the run pops
only `yield_resps` and proceeds with a loop whose condition short-circuits
before the length test (so the stream covers every page of the feed until
the page without a truthy `next` link, for any `max_resps` value in the
keyword arguments), and `max_resps` stays in the keyword arguments
forwarded to every page request, like any ordinary query parameter. -/
theorem C10_streaming_ignores_max_resps (bodies : List JValue)
    (parseNext : JValue → Kwargs) (kwargs : Kwargs) (fuel : Nat)
    (hn : ∀ k, k < bodies.length →
      (((pyGet ((bodies.get? k).getD .null) "next").toOption.getD .null).truthy
        = decide (k + 1 < bodies.length)))
    (hne : 0 < bodies.length) (hfuel : bodies.length ≤ fuel)
    (hyr : ((dlookup kwargs "yield_resps").getD (JValue.bool false)).truthy
      = true)
    (hmr : dhas kwargs "max_resps" = true) :
    (handle_pagination_run (serve bodies) parseNext fuel kwargs).yielded
      = bodies.map (fun b => Response.mk b true)
    ∧ ∀ c ∈ (handle_pagination_run (serve bodies) parseNext fuel kwargs).calls,
        dhas c "max_resps" = true := by
  have hrun : handle_pagination_run (serve bodies) parseNext fuel kwargs
      = pagLoop (serve bodies) parseNext true (JValue.num (-1)) fuel 0
          (dremove kwargs "yield_resps") [] := by
    simp [handle_pagination_run, dpop, hyr]
  constructor
  · rw [hrun]
    have h := pagLoop_stream_serve bodies parseNext (JValue.num (-1)) hn fuel 0
      (dremove kwargs "yield_resps") [] hne (by omega)
    simpa using h
  · rw [hrun]
    intro c hc
    refine pagLoop_calls_key (serve bodies) parseNext true (JValue.num (-1))
      "max_resps" fuel 0 (dremove kwargs "yield_resps") [] ?_ c hc
    unfold dhas at hmr ⊢
    rw [dlookup_dremove_ne _ _ _ (by decide)]
    exact hmr

/-- C10 witness: the three-page feed streamed with `max_resps = 1` in the
keyword arguments still yields all three pages, and every one of the page
requests carries the `max_resps` key. -/
theorem C10_streaming_ignores_max_resps_witness :
    (handle_pagination_run (serve bodies3) parseNextPage 3
        [("yield_resps", JValue.bool true), ("max_resps", JValue.num 1)]).yielded
      = bodies3.map (fun b => Response.mk b true)
    ∧ ∀ c ∈ (handle_pagination_run (serve bodies3) parseNextPage 3
        [("yield_resps", JValue.bool true), ("max_resps", JValue.num 1)]).calls,
        dhas c "max_resps" = true :=
  C10_streaming_ignores_max_resps bodies3 parseNextPage
    [("yield_resps", JValue.bool true), ("max_resps", JValue.num 1)] 3
    (by decide) (by decide) (by decide) (by decide) (by decide)

/-!
### Response-processing theorems (claims C4, C5 and C9)
-/

/-- Reversal commutes with `filterMap`. -/
theorem filterMap_rev (f : α → Option β) (l : List α) :
    (l.filterMap f).reverse = l.reverse.filterMap f := by
  induction l with
  | nil => rfl
  | cons a t ih =>
      cases hfa : f a with
      | none =>
          simp only [List.reverse_cons, List.filterMap_append,
            List.filterMap_cons, hfa, ih]
          simp [List.filterMap_cons, hfa]
      | some b =>
          simp only [List.reverse_cons, List.filterMap_append,
            List.filterMap_cons, hfa, List.reverse_cons, ih]
          simp [List.filterMap_cons, hfa]

/-- Key membership matches membership in the key list. -/
theorem dkeys_mem (d : List (String × α)) (k : String) :
    k ∈ dkeys d ↔ dhas d k = true := by
  induction d with
  | nil => simp [dkeys, dhas, dlookup]
  | cons hd tl ih =>
      obtain ⟨a, v⟩ := hd
      by_cases h : a = k
      · subst h
        simp [dkeys, dhas, dlookup]
      · simp only [dkeys, List.map_cons, List.mem_cons]
        rw [show dhas ((a, v) :: tl) k = dhas tl k by simp [dhas, dlookup, h]]
        simp only [dkeys] at ih
        simp only [ih]
        constructor
        · intro hor
          cases hor with
          | inl h1 => exact absurd h1.symm h
          | inr h2 => exact h2
        · exact Or.inr

/-- Lookup in a list of pairs built by tagging each key of `ks` with its
value in `D2` (keys without a value are skipped): the result is `D2`'s
value exactly for the keys of `ks`. -/
theorem dlookup_keyed_filterMap (D2 : List (String × JValue)) (ks : List String)
    (k : String) :
    dlookup (ks.filterMap (fun s => (dlookup D2 s).map (fun v => (s, v)))) k
      = if k ∈ ks then dlookup D2 k else none := by
  induction ks with
  | nil => simp [dlookup]
  | cons s rest ih =>
      cases hds : dlookup D2 s with
      | none =>
          simp only [List.filterMap_cons, hds, Option.map_none']
          rw [ih]
          by_cases hk : k ∈ rest
          · simp [hk, List.mem_cons]
          · by_cases hks : k = s
            · subst hks
              simp [hk, hds]
            · simp [hk, hks]
      | some v =>
          simp only [List.filterMap_cons, hds, Option.map_some']
          simp only [dlookup]
          by_cases hks : s = k
          · subst hks
            simp [hds]
          · rw [if_neg hks, ih]
            have hmem : (k ∈ s :: rest) ↔ k ∈ rest := by
              simp only [List.mem_cons]
              constructor
              · intro h
                cases h with
                | inl h1 => exact absurd h1.symm hks
                | inr h2 => exact h2
              · exact Or.inr
            by_cases hk : k ∈ rest <;> simp [hk, hmem]

/-- The `resource_name` resolution loop, as a lookup equation: a
decoration-time value wins; otherwise, when the endpoint object has the
attribute, the method object's attribute wins over it when present;
when the endpoint object lacks the attribute, nothing is resolved (the
eagerly evaluated `getattr(self, arg)` default raises first). -/
theorem dlookup_resolve (D : List (String × JValue)) (env : MethodEnv) :
    dlookup (resolveRespProcArgs D env) "resource_name"
      = (dlookup D "resource_name").orElse (fun _ =>
          match env.sattr "resource_name" with
          | some sv => some ((env.fattr "resource_name").getD sv)
          | none => none) := by
  unfold resolveRespProcArgs
  by_cases hD : dhas D "resource_name" = true
  · rw [if_pos hD]
    unfold dhas at hD
    cases hl : dlookup D "resource_name" with
    | none => rw [hl] at hD; simp at hD
    | some v => simp [hl, Option.orElse]
  · have hDf : dhas D "resource_name" = false := by
      cases h2 : dhas D "resource_name"
      · rfl
      · exact absurd h2 hD
    rw [if_neg (by simp [hDf])]
    have hl : dlookup D "resource_name" = none := by
      unfold dhas at hDf
      cases h2 : dlookup D "resource_name"
      · rfl
      · rw [h2] at hDf; simp at hDf
    cases hs : env.sattr "resource_name" with
    | none => simp [hl, Option.orElse]
    | some sv =>
        rw [dlookup_dinsert]
        simp [hl, Option.orElse]

/-- The keyword arguments bound into a processor, as the lookup of its
(possibly absent) `keywords` attribute. -/
theorem dlookup_keywords (p : ProcObj) (k : String) :
    dlookup (p.keywords.getD []) k = boundKwarg p k := by
  cases hk : p.keywords <;> simp [boundKwarg, hk, dlookup]

/-- What the freezing step passes to the processor for `resource_name`,
for an arbitrary argument dict: for a partial-object processor, its bound
keyword arguments survive untouched when the dict is empty and the step
raises `TypeError` when it is not; for a plain function, the dict's value
when the function accepts the parameter, nothing otherwise. -/
theorem dlookup_handle_resp_proc_args (p : ProcObj)
    (D2 : List (String × JValue)) :
    (handle_resp_proc_args p D2).map (fun kw => dlookup kw "resource_name")
      = match p.keywords with
        | some kw =>
            if D2.isEmpty then .ok (dlookup kw "resource_name")
            else .error .typeError
        | none =>
            .ok (if p.params.contains "resource_name" then
                   dlookup D2 "resource_name"
                 else none) := by
  cases hkw : p.keywords with
  | some kw =>
      by_cases hemp : D2.isEmpty = true
      · unfold handle_resp_proc_args
        rw [if_pos hemp, hkw]
        simp [Except.map, hemp]
      · have hef : D2.isEmpty = false := by
          cases h2 : D2.isEmpty
          · rfl
          · exact absurd h2 hemp
        unfold handle_resp_proc_args
        rw [if_neg hemp, hkw]
        simp [Except.map, hef]
  | none =>
      by_cases hemp : D2.isEmpty = true
      · have hnil : D2 = [] := by
          cases D2 with
          | nil => rfl
          | cons a l => simp [List.isEmpty] at hemp
        subst hnil
        have h1 : handle_resp_proc_args p []
            = .ok (p.keywords.getD []) := rfl
        rw [h1, hkw]
        by_cases hc : p.params.contains "resource_name" = true <;>
          simp [Except.map, dlookup, hc]
      · unfold handle_resp_proc_args
        rw [if_neg hemp, hkw]
        dsimp only
        unfold ProcObj.callKwargs
        rw [hkw]
        simp only [Option.getD_none, Except.map]
        rw [dlookup_dupdate, filterMap_rev, dlookup_keyed_filterMap]
        simp only [List.mem_reverse]
        by_cases hc : p.params.contains "resource_name" = true
        · rw [if_pos hc]
          by_cases hd2 : dhas D2 "resource_name" = true
          · have hmem : "resource_name" ∈
                List.filter (fun k => p.params.contains k) (dkeys D2) := by
              rw [List.mem_filter]
              exact ⟨(dkeys_mem D2 _).mpr hd2, hc⟩
            rw [if_pos hmem]
            cases hv : dlookup D2 "resource_name" <;>
              simp [dlookup, Option.orElse]
          · have hnone : dlookup D2 "resource_name" = none := by
              cases hv : dlookup D2 "resource_name"
              · rfl
              · exact absurd (by simp [dhas, hv]) hd2
            have hnot : ¬("resource_name" ∈
                List.filter (fun k => p.params.contains k) (dkeys D2)) := by
              intro hmem
              rw [List.mem_filter] at hmem
              exact absurd ((dkeys_mem D2 _).mp hmem.1) hd2
            rw [if_neg hnot, hnone]
            simp [dlookup, Option.orElse]
        · have hnot : ¬("resource_name" ∈
              List.filter (fun k => p.params.contains k) (dkeys D2)) := by
            intro hmem
            rw [List.mem_filter] at hmem
            exact absurd hmem.2 hc
          rw [if_neg hnot, if_neg hc]
          simp [dlookup, Option.orElse]

/-- C4 counterexample. Three configurations refute the claimed precedence.
With the configuration of `People.register` — a decorator-supplied
`resp_proc_args` value `resource_name="status"`, a plain-function processor
accepting `resource_name`, no method attribute, endpoint attribute
`resource_name="person"` — the processor receives `"status"`, while the
claim's precedence (caller value, then partial-bound value, then method
attribute, then endpoint attribute: here only the endpoint attribute is
present) yields `"person"`. When only the *method* object carries the
attribute and the endpoint object does not, the code resolves nothing —
the eagerly evaluated `getattr(self, arg)` default raises first — while
the claim yields `"results"`. And when the processor is a partial object
with a caller-bound value and any value is resolved into the argument dict,
the freezing step raises `TypeError` (`set & tuple`) and the processor is
never invoked, where the claim says the caller-supplied value wins and no
error is ever raised. -/
theorem C4_counterexample :
    receivedKwarg probeProc [("resource_name", JValue.str "status")]
        envRegister "resource_name" = .ok (some (JValue.str "status"))
    ∧ claimedPrecedence none none none (some (JValue.str "person"))
        = some (JValue.str "person")
    ∧ (handle_resp_proc_call (some probeProc)
          [("resource_name", JValue.str "status")] envRegister .omitted
          (.single ⟨JValue.null, true⟩)).output
        = .ok (.processed (JValue.arr [JValue.str "status"]))
    ∧ some (JValue.str "status") ≠ some (JValue.str "person")
    ∧ receivedKwarg probeProc [] envMethodOnly "resource_name" = .ok none
    ∧ claimedPrecedence none none (some (JValue.str "results")) none
        = some (JValue.str "results")
    ∧ (none : Option JValue) ≠ some (JValue.str "results")
    ∧ receivedKwarg partialProbeProc [] envRegister "resource_name"
        = .error PyErr.typeError
    ∧ claimedPrecedence (some (JValue.str "caller")) none none
          (some (JValue.str "person")) = some (JValue.str "caller")
    ∧ (handle_resp_proc_call (some partialProbeProc) [] envRegister .omitted
          (.single ⟨JValue.null, true⟩)).output
        = .error PyErr.typeError :=
  ⟨rfl, rfl, rfl, by simp, rfl, rfl, by simp, rfl, rfl, rfl⟩

/-- C4 (amended): for a processor accepting an extra keyword parameter
(`resource_name`), the chain behaves as follows. When the processor is a
plain function, the parameter resolves with the precedence: a
decorator-supplied `resp_proc_args` value; then, provided the endpoint
object has a same-named attribute, the method object's attribute when
present, else the endpoint object's (when the endpoint object lacks the
attribute the method attribute is never consulted); if no source provides
the parameter, or the function does not accept it, it is silently omitted
and no error is raised. When the processor is a `functools.partial` object
(the only way a caller supplies a per-call value, since a caller-provided
`resp_proc` replaces the default processor), its bound value is used only
when those sources resolve nothing at all; whenever the resolved argument
dict is non-empty the freezing step raises `TypeError` (a builtin `set` is
intersected with a tuple) and the call fails instead of invoking the
processor. -/
theorem C4_resolution_order (p : ProcObj) (D : List (String × JValue))
    (env : MethodEnv) :
    receivedKwarg p D env "resource_name"
      = match p.keywords with
        | some kw =>
            if (resolveRespProcArgs D env).isEmpty then
              .ok (dlookup kw "resource_name")
            else .error .typeError
        | none =>
            .ok (if p.params.contains "resource_name" then
                   (dlookup D "resource_name").orElse (fun _ =>
                     match env.sattr "resource_name" with
                     | some sv => some ((env.fattr "resource_name").getD sv)
                     | none => none)
                 else none) := by
  unfold receivedKwarg
  rw [dlookup_handle_resp_proc_args, dlookup_resolve]

/-- C5: a homogeneous batch call whose result list contains a falsy
response skips all processing, logs an error, and returns the raw list
unchanged. -/
theorem C5_batch_with_falsy_item_returns_raw (rpDflt : Option ProcObj)
    (D : List (String × JValue)) (env : MethodEnv) (callerRP : RespProcArg)
    (rs : List Response) (p : ProcObj)
    (hsel : (match callerRP with
             | .omitted => rpDflt
             | .passed x => x) = some p)
    (hbad : ∃ r ∈ rs, r.ok = false) :
    (handle_resp_proc_call rpDflt D env callerRP (.listRes rs)).output
      = .ok (.raw (.listRes rs))
    ∧ (handle_resp_proc_call rpDflt D env callerRP (.listRes rs)).errorLogged
      = true := by
  obtain ⟨r, hr, hrok⟩ := hbad
  have hne : rs.isEmpty = false := by
    cases rs with
    | nil => cases hr
    | cons a l => rfl
  have htr : (CallRes.listRes rs).truthy = true := by
    simp [CallRes.truthy, hne]
  have hall : rs.all Response.ok = false := by
    rw [List.all_eq_false]
    exact ⟨r, hr, by simp [hrok]⟩
  unfold handle_resp_proc_call
  rw [hsel]
  simp [htr, hall]

/-- C5 witness: a two-item batch whose second response is falsy is returned
raw, with the error logged. -/
theorem C5_batch_with_falsy_item_returns_raw_witness :
    (handle_resp_proc_call none [] envRegister (.passed (some probeProc))
        (.listRes [⟨JValue.null, true⟩, ⟨JValue.null, false⟩])).output
      = .ok (.raw (.listRes [⟨JValue.null, true⟩, ⟨JValue.null, false⟩]))
    ∧ (handle_resp_proc_call none [] envRegister (.passed (some probeProc))
        (.listRes [⟨JValue.null, true⟩, ⟨JValue.null, false⟩])).errorLogged
      = true :=
  C5_batch_with_falsy_item_returns_raw none [] envRegister
    (.passed (some probeProc)) [⟨JValue.null, true⟩, ⟨JValue.null, false⟩]
    probeProc rfl
    ⟨⟨JValue.null, false⟩, List.mem_cons_of_mem _ (List.mem_cons_self _ _),
      rfl⟩

/-- C9: for a method decorated without a decorator-supplied
`resource_name`, once a processed invocation resolves a value from the
method/endpoint attributes, that value is stored in the decoration-time
`resp_proc_args` dict shared by every invocation of the method; the
resolution loop of any later invocation sees the key present and leaves the
dict unchanged, reusing the first invocation's value whatever the current
method and endpoint attributes are. -/
theorem C9_resolution_memoized (D : List (String × JValue))
    (env1 env2 : MethodEnv) (p : ProcObj) (res : CallRes) (sv : JValue)
    (hD : dhas D "resource_name" = false)
    (hs : env1.sattr "resource_name" = some sv)
    (hres : res.truthy = true) :
    dlookup (handle_resp_proc_call (some p) D env1 .omitted res).state
        "resource_name"
      = some ((env1.fattr "resource_name").getD sv)
    ∧ resolveRespProcArgs
        (handle_resp_proc_call (some p) D env1 .omitted res).state env2
      = (handle_resp_proc_call (some p) D env1 .omitted res).state := by
  have hstate : (handle_resp_proc_call (some p) D env1 .omitted res).state
      = resolveRespProcArgs D env1 := by
    unfold handle_resp_proc_call
    cases res with
    | single r => simp [hres]
    | listRes rs =>
        simp only [hres, if_pos]
        by_cases hall : rs.all Response.ok = true <;> simp [hall]
    | noneRes => simp [CallRes.truthy] at hres
  have hresolved : resolveRespProcArgs D env1
      = dinsert D "resource_name" ((env1.fattr "resource_name").getD sv) := by
    unfold resolveRespProcArgs
    rw [if_neg (by simp [hD]), hs]
  have hlk : dlookup (resolveRespProcArgs D env1) "resource_name"
      = some ((env1.fattr "resource_name").getD sv) := by
    rw [hresolved, dlookup_dinsert, if_pos rfl]
  constructor
  · rw [hstate]
    exact hlk
  · rw [hstate]
    generalize hX : resolveRespProcArgs D env1 = X at hlk
    have hdh : dhas X "resource_name" = true := by simp [dhas, hlk]
    unfold resolveRespProcArgs
    simp [hdh]

/-- C9 witness: with no decorator-supplied `resource_name` and a first
processed invocation on an endpoint whose attribute is `"person"`, the dict
maps `resource_name` to `"person"` afterwards, and a second invocation on
an endpoint whose attribute is `"tag"` leaves the dict unchanged. -/
theorem C9_resolution_memoized_witness :
    dlookup (handle_resp_proc_call (some probeProc) [] envRegister .omitted
        (.single ⟨JValue.null, true⟩)).state "resource_name"
      = some (JValue.str "person")
    ∧ resolveRespProcArgs
        (handle_resp_proc_call (some probeProc) [] envRegister .omitted
          (.single ⟨JValue.null, true⟩)).state envTag
      = (handle_resp_proc_call (some probeProc) [] envRegister .omitted
          (.single ⟨JValue.null, true⟩)).state :=
  C9_resolution_memoized [] envRegister envTag probeProc
    (.single ⟨JValue.null, true⟩) (JValue.str "person") rfl rfl rfl

/-!
### Shopify task theorems (claims C7 and C8)
-/

/-- C7: after the redemption guard passes, any failure inside the exchange
rolls back — the run reports the error to the caller (re-raise), the
person's pending-redemption field is restored to the redemption amount, the
price rule is destroyed whenever one was created (the `NameError` of an
unbound `price_rule` is swallowed otherwise), and no capital is deducted. -/
theorem C7_rollback_on_failure (rate : Rat) (env : ShopEnv)
    (p0 : PersonState) (r : Rat)
    (hp : p0.pendingRedemption = some r)
    (hpos : 0 < r) (hcap : r ≤ (p0.capitalCents : Rat) / 100)
    (hfail : env.createRuleFails = true ∨ env.addCodeFails = true
      ∨ env.addCapitalFails = true) :
    (∃ e, (create_discount rate env p0).result = .error e)
    ∧ (create_discount rate env p0).person.pendingRedemption = some r
    ∧ ((∃ v, TaskAct.createPriceRule v ∈ (create_discount rate env p0).trace)
        → TaskAct.destroyPriceRule ∈ (create_discount rate env p0).trace)
    ∧ ∀ c : Int,
        TaskAct.addCapital c ∉ (create_discount rate env p0).trace := by
  simp only [create_discount, hp]
  rw [if_pos ⟨hpos, hcap⟩]
  cases hc1 : env.createRuleFails with
  | true =>
      refine ⟨⟨"price rule creation failed", rfl⟩, rfl, ?_, ?_⟩
      · rintro ⟨v, hv⟩
        simp at hv
      · intro c
        simp
  | false =>
      cases hc2 : env.addCodeFails with
      | true =>
          refine ⟨⟨"discount code creation failed", rfl⟩, rfl, ?_, ?_⟩
          · intro _
            simp
          · intro c
            simp
      | false =>
          cases hc3 : env.addCapitalFails with
          | true =>
              refine ⟨⟨"capital post failed", rfl⟩, rfl, ?_, ?_⟩
              · intro _
                simp
              · intro c
                simp
          | false =>
              rcases hfail with h | h | h
              · rw [hc1] at h
                cases h
              · rw [hc2] at h
                cases h
              · rw [hc3] at h
                cases h

/-- C7 witness: a redemption of 5 against a 10.00 balance, with the
discount-code step failing. -/
theorem C7_rollback_on_failure_witness :
    (∃ e, (create_discount 1 ⟨false, true, false⟩
        ⟨some 5, 1000⟩).result = .error e)
    ∧ (create_discount 1 ⟨false, true, false⟩
        ⟨some 5, 1000⟩).person.pendingRedemption = some 5
    ∧ ((∃ v, TaskAct.createPriceRule v ∈ (create_discount 1
          ⟨false, true, false⟩ ⟨some 5, 1000⟩).trace)
        → TaskAct.destroyPriceRule ∈ (create_discount 1
            ⟨false, true, false⟩ ⟨some 5, 1000⟩).trace)
    ∧ ∀ c : Int, TaskAct.addCapital c ∉ (create_discount 1
        ⟨false, true, false⟩ ⟨some 5, 1000⟩).trace :=
  C7_rollback_on_failure 1 ⟨false, true, false⟩ ⟨some 5, 1000⟩ 5 rfl
    (by norm_num) (by norm_num) (Or.inr (Or.inl rfl))

/-- C8 counterexample. With a pending redemption of 0 (not strictly
positive, so the guard is violated) and a 1.00 balance, the run creates no
price rule or discount code, deducts no capital and raises nothing — but
the person's state is *not* left unchanged: the pending-redemption field
was already cleared to `None` before the guard. -/
theorem C8_counterexample :
    (create_discount 1 ⟨false, false, false⟩ ⟨some 0, 100⟩).result = .ok ()
    ∧ (create_discount 1 ⟨false, false, false⟩ ⟨some 0, 100⟩).trace.all
        (fun a => !a.isForbiddenEffect) = true
    ∧ (create_discount 1 ⟨false, false, false⟩ ⟨some 0, 100⟩).person
        ≠ (⟨some 0, 100⟩ : PersonState)
    ∧ TaskAct.updatePending none
        ∈ (create_discount 1 ⟨false, false, false⟩ ⟨some 0, 100⟩).trace := by
  exact ⟨rfl, rfl, by decide, by decide⟩

/-- C8 (amended): when the requested redemption amount is not strictly
positive or exceeds the available capital balance, `create_discount` is a
silent no-op apart from the pending-redemption field, which it has already
cleared to `None` before the guard: no price rule or discount code is
created, no capital is deducted (the balance is unchanged), no exception is
raised, and the pending field is left cleared. -/
theorem C8_guard_violation_noop (rate : Rat) (env : ShopEnv)
    (p0 : PersonState) (r : Rat)
    (hp : p0.pendingRedemption = some r)
    (hviol : ¬(0 < r ∧ r ≤ (p0.capitalCents : Rat) / 100)) :
    (create_discount rate env p0).result = .ok ()
    ∧ (create_discount rate env p0).trace.all
        (fun a => !a.isForbiddenEffect) = true
    ∧ (create_discount rate env p0).person.capitalCents = p0.capitalCents
    ∧ (create_discount rate env p0).person.pendingRedemption = none := by
  simp only [create_discount, hp]
  rw [if_neg hviol]
  exact ⟨rfl, rfl, rfl, rfl⟩

/-- C8 witness: a negative requested redemption of -3 against a 1.00
balance. -/
theorem C8_guard_violation_noop_witness :
    (create_discount 1 ⟨false, false, false⟩ ⟨some (-3), 100⟩).result
      = .ok ()
    ∧ (create_discount 1 ⟨false, false, false⟩
        ⟨some (-3), 100⟩).trace.all (fun a => !a.isForbiddenEffect) = true
    ∧ (create_discount 1 ⟨false, false, false⟩
        ⟨some (-3), 100⟩).person.capitalCents = 100
    ∧ (create_discount 1 ⟨false, false, false⟩
        ⟨some (-3), 100⟩).person.pendingRedemption = none :=
  C8_guard_violation_noop 1 ⟨false, false, false⟩ ⟨some (-3), 100⟩ (-3) rfl
    (by norm_num)
